import Mathlib

/-!
Verification of the quiz/flashcard session logic and the text-to-speech client
of the language-learning demo repository.

The development shallowly embeds:
* the `Quiz` React component (question sequencing, the per-question interval
  timer with its captured render closure, answer submission, auto-advance
  timeouts, scoring) — file `part_003`, `Quiz` component;
* the flashcard navigation index arithmetic — `Flashcard.tsx` and the
  `renderFlashcards` callbacks of `LanguageLearning`;
* the `TextToSpeechService` wrapper around the ElevenLabs HTTP API together
  with the module-level singleton (`initTTS` / `getTTS`) and the
  component-level `handleSpeak` dispatcher — files `part_004` and `part_003`.

React semantics captured by the embedding: `useState` cells are a committed
state record; event handlers are state-transition functions. The timer
effect (part_003, lines 544-558) has dependency array
`[currentQuestionIndex, isComplete]`, so the `setInterval` callback holds
the `handleTimeUp` / `handleAnswerSubmit` closures of the render at which
the question became current: `showResult`, `selectedAnswer`, `results` and
`startTime` inside the interval callback are the values of that render
(always `false` / `null` / the records so far / the PREVIOUS baseline),
not the current ones. This captured snapshot (`TimerClosure`) and the
queue of scheduled auto-advance `setTimeout` continuations
(`PendingAdvance`, capturing the scheduling closure's index and records)
are explicit parts of the modelled state. `setCurrentQuestionIndex(prev =>
prev + 1)` is a functional update and reads the current index.

JavaScript numbers are modelled exactly: indices and counters as `Nat`,
the score computation `Math.round((c / n) * 100)` as `⌊100 * c / n + 1/2⌋`
over `ℚ` (for the non-negative arguments arising here, JS `Math.round x`
is `⌊x + 1/2⌋`; the operands are small enough that the double-precision
computation is exact at every input used in the theorems below).
-/

/-! ## Data model of the Quiz component (part_003, lines 509-541) -/

/-- A quiz question as defined by the `QuizQuestion` interface:
`id`, `question`, `options`, `correctAnswer`, optional `explanation`
and `audioText`. -/
structure QuizQuestion where
  id : String
  question : String
  options : List String
  correctAnswer : Nat
  explanation : Option String := none
  audioText : Option String := none
  deriving Repr, DecidableEq

/-- An answer record as defined by the `QuizResult` interface:
`questionId`, `selected` (`number | null`), `correct`, `timeSpent`. -/
structure QuizResult where
  questionId : String
  selected : Option Nat
  correct : Bool
  timeSpent : Nat
  deriving Repr, DecidableEq

/-- The snapshot captured by the `setInterval` callback of the timer effect
(part_003, lines 544-558). The effect re-runs only when
`currentQuestionIndex` or `isComplete` changes, so the interval callback
keeps the `handleTimeUp`/`handleAnswerSubmit` closures — and through them
these state values — from the render at which it was created. -/
structure TimerClosure where
  capIndex : Nat
  capSelected : Option Nat
  capShowResult : Bool
  capResults : List QuizResult
  capStartTime : Nat
  deriving Repr, DecidableEq

/-- A pending auto-advance `setTimeout` continuation (part_003, lines
593-599). Its body reads `currentQuestionIndex` and `newResults` from the
closure of the `handleAnswerSubmit` call that scheduled it, so those two
values are captured here; `handleNextQuestion` itself updates the index
functionally (`prev => prev + 1`) and so acts on the current state. -/
structure PendingAdvance where
  capIndex : Nat
  capResults : List QuizResult
  deriving Repr, DecidableEq

/-- The committed `useState` cells of the `Quiz` component (part_003, lines
532-541) and its props (`questions`, `timeLimit`), together with the live
interval's captured closure (`timer`; `none` after the effect tears the
interval down on completion), the queue of scheduled auto-advance timeouts
(`pending`, FIFO: all are scheduled with the same 2000 ms delay), and the
`onComplete` payloads emitted so far (`completions`; the reported score of a
payload is `completionScore` of it). `startTime` and the `now` arguments of
the handlers are wall-clock milliseconds, as produced by `Date.now()`. -/
structure QuizState where
  questions : List QuizQuestion
  timeLimit : Nat
  currentQuestionIndex : Nat
  selectedAnswer : Option Nat
  showResult : Bool
  results : List QuizResult
  startTime : Nat
  timeLeft : Nat
  isComplete : Bool
  timer : Option TimerClosure
  pending : List PendingAdvance
  completions : List (List QuizResult)
  deriving Repr, DecidableEq

/-- State after mount: index 0, no selection, no results, full time budget,
and the interval created by the mount-time timer effect, whose closure
captures the initial render's values. -/
def initQuizState (questions : List QuizQuestion) (timeLimit : Nat) (now : Nat) :
    QuizState :=
  { questions := questions
    timeLimit := timeLimit
    currentQuestionIndex := 0
    selectedAnswer := none
    showResult := false
    results := []
    startTime := now
    timeLeft := timeLimit
    isComplete := false
    timer := some { capIndex := 0, capSelected := none, capShowResult := false,
                    capResults := [], capStartTime := now }
    pending := []
    completions := [] }

/-! ## Event handlers of the Quiz component -/

/-- Handler `handleAnswerSelect` (part_003, lines 572-575):
`if (showResult) return; setSelectedAnswer(answerIndex);`. Click handlers
are recreated every render, so this reads the current `showResult`. A
selection made while the result is shown is silently dropped; no error of
any kind is raised. -/
def handleAnswerSelect (st : QuizState) (answerIndex : Nat) : QuizState :=
  if st.showResult then st
  else { st with selectedAnswer := some answerIndex }

/-- Body of `handleAnswerSubmit` (part_003, lines 577-600) as invoked from a
closure whose captured values are passed explicitly: records
`selected = sel`, `correct = (sel === question.correctAnswer)` (strict
equality, so a `null` selection is never correct),
`timeSpent = Math.floor((now - startT) / 1000)`, SETS `results` to the
captured base plus the new record, sets `showResult`, and schedules an
auto-advance timeout capturing the closure's index and the new list.
Returns `none` when `questions[qIdx]` is `undefined` (the JS code would
throw a `TypeError` there). -/
def submitFrom (st : QuizState) (base : List QuizResult) (sel : Option Nat)
    (qIdx startT : Nat) (now : Nat) : Option QuizState :=
  (st.questions[qIdx]?).map fun q =>
    let r : QuizResult :=
      { questionId := q.id
        selected := sel
        correct := decide (sel = some q.correctAnswer)
        timeSpent := (now - startT) / 1000 }
    { st with
        results := base ++ [r]
        showResult := true
        pending := st.pending ++ [{ capIndex := qIdx, capResults := base ++ [r] }] }

/-- `handleAnswerSubmit` as called from the Submit button (part_003, lines
779-788): the button's onClick closure is from the current render, so the
submission uses the current `results`, `selectedAnswer`, index and
`startTime`. -/
def handleAnswerSubmit (st : QuizState) (now : Nat) : Option QuizState :=
  submitFrom st st.results st.selectedAnswer st.currentQuestionIndex
    st.startTime now

/-- Handler `handleTimeUp` (part_003, lines 566-570):
`if (!showResult) { handleAnswerSubmit(); }` — as invoked by the interval
callback, which holds the closure captured in `cl`: the `showResult` it
tests and every value the submission uses (`selectedAnswer` — always null
at capture —, `results`, `startTime`, the question index) come from `cl`,
not from the current state. -/
def handleTimeUp (cl : TimerClosure) (st : QuizState) (now : Nat) :
    Option QuizState :=
  if cl.capShowResult then some st
  else submitFrom st cl.capResults cl.capSelected cl.capIndex cl.capStartTime now

/-- One firing of the interval callback (part_003, lines 547-555):
`setTimeLeft(prev => prev <= 1 ? (handleTimeUp(); 0) : prev - 1)`. The
countdown uses a functional update (current `timeLeft`), while the
`handleTimeUp` it triggers at expiry runs the captured closure. `none` when
no interval is live (it is torn down on completion) or the stale submission
dereferences a missing question. Note that once `timeLeft` reaches 0 it
stays 0, so EVERY subsequent tick of a live interval re-fires the stale
`handleTimeUp` (whose captured `showResult` is false), re-submitting and
scheduling an additional auto-advance each second. -/
def quizTick (st : QuizState) (now : Nat) : Option QuizState :=
  match st.timer with
  | none => none
  | some cl =>
      if st.timeLeft ≤ 1 then
        (handleTimeUp cl st now).map fun s => { s with timeLeft := 0 }
      else some { st with timeLeft := st.timeLeft - 1 }

/-- Handler `handleNextQuestion` (part_003, lines 602-606):
`setCurrentQuestionIndex(prev => prev + 1)` (functional, so it increments
the CURRENT index even when invoked from a stale timeout), clears the
per-question selection and result flag. The code contains no state guard
and no error path. -/
def handleNextQuestion (st : QuizState) : QuizState :=
  { st with
      currentQuestionIndex := st.currentQuestionIndex + 1
      selectedAnswer := none
      showResult := false }

/-- Effects that run on the commit in which `currentQuestionIndex` changed:
the timer effect (part_003, lines 544-558; declared first) clears the old
interval and — unless `isComplete` — creates a new one capturing THIS
render's values (selection and result flag just cleared, current records,
and the still-unreset `startTime` of the previous question); the reset
effect (lines 561-564; declared second) then sets `startTime` to now and
`timeLeft` to the budget, which does not re-create the interval. -/
def questionChangeEffects (st : QuizState) (now : Nat) : QuizState :=
  { st with
      timer := if st.isComplete then none
        else some { capIndex := st.currentQuestionIndex
                    capSelected := st.selectedAnswer
                    capShowResult := st.showResult
                    capResults := st.results
                    capStartTime := st.startTime }
      startTime := now
      timeLeft := st.timeLimit }

/-- Handler `handleQuizComplete` (part_003, lines 608-612): sets
`isComplete` and calls `onComplete(score, finalResults)` with the records
captured by the scheduling submission; the emitted payload is recorded in
`completions` and its reported score is `completionScore` of it. -/
def handleQuizComplete (st : QuizState) (finalResults : List QuizResult) :
    QuizState :=
  { st with
      isComplete := true
      completions := st.completions ++ [finalResults] }

/-- One auto-advance `setTimeout` continuation firing (part_003, lines
593-599): timeouts fire in FIFO order (equal delays, scheduled in order)
and are never cleared, so they fire even after completion. The branch test
`currentQuestionIndex < questions.length - 1` reads the scheduling
closure's captured index. On the advance branch, the index change commits
and the question-change effects run; on the completion branch, the
`isComplete` change re-runs the timer effect, which clears the interval and
returns early (line 545), while the reset effect's dependencies are
unchanged. -/
def fireAdvanceTimeout (st : QuizState) (now : Nat) : Option QuizState :=
  match st.pending with
  | [] => none
  | p :: rest =>
      if p.capIndex < st.questions.length - 1 then
        some (questionChangeEffects
          (handleNextQuestion { st with pending := rest }) now)
      else
        some { handleQuizComplete { st with pending := rest } p.capResults with
                 timer := none }

/-- Number of correct records: `results.filter(r => r.correct).length`. -/
def countCorrect (results : List QuizResult) : Nat :=
  (results.filter (·.correct)).length

/-- JavaScript `Math.round` on a non-negative number: round half up,
i.e. `⌊x + 1/2⌋`. -/
def mathRound (x : ℚ) : ℤ := ⌊x + 1 / 2⌋

/-- The score computed by `handleQuizComplete` (part_003, line 610):
`Math.round((finalResults.filter(r => r.correct).length / finalResults.length) * 100)`. -/
def completionScore (finalResults : List QuizResult) : ℤ :=
  mathRound ((countCorrect finalResults : ℚ) / (finalResults.length : ℚ) * 100)

/-! ## Step relation of the Quiz component

Steps are the externally triggered executions: user clicks on an option
(`select`; the handler is self-guarding), a click of the Submit button
(`submitClick`; the button is rendered only when `!showResult &&
selectedAnswer !== null`, part_003 lines 779-788, and the quiz UI only
while `!isComplete`, line 663), one firing of the live interval (`tick`),
and one firing of a scheduled auto-advance timeout (`fireAdvance`). Event
timing and the interleaving of simultaneously due timers are chosen by the
environment, so the relation covers every real scheduling. -/

/-- One externally triggered step of the `Quiz` component. -/
inductive QuizStep : QuizState → QuizState → Prop
  | select (st : QuizState) (i : Nat) :
      QuizStep st (handleAnswerSelect st i)
  | submitClick (st : QuizState) (now : Nat) (st' : QuizState)
      (hns : st.showResult = false) (hsel : st.selectedAnswer.isSome)
      (hnc : st.isComplete = false)
      (h : handleAnswerSubmit st now = some st') :
      QuizStep st st'
  | tick (st : QuizState) (now : Nat) (st' : QuizState)
      (h : quizTick st now = some st') :
      QuizStep st st'
  | fireAdvance (st : QuizState) (now : Nat) (st' : QuizState)
      (h : fireAdvanceTimeout st now = some st') :
      QuizStep st st'

/-- The expiry-free fragment of `QuizStep`: the same steps, except that the
interval may only fire while `timeLeft > 1` (a pure countdown tick). This
models sessions in which no per-question timer ever expires — every
question is finalized by an explicit Submit click. -/
inductive QuizStepNE : QuizState → QuizState → Prop
  | select (st : QuizState) (i : Nat) :
      QuizStepNE st (handleAnswerSelect st i)
  | submitClick (st : QuizState) (now : Nat) (st' : QuizState)
      (hns : st.showResult = false) (hsel : st.selectedAnswer.isSome)
      (hnc : st.isComplete = false)
      (h : handleAnswerSubmit st now = some st') :
      QuizStepNE st st'
  | tickCountdown (st : QuizState) (now : Nat) (st' : QuizState)
      (hgt : 1 < st.timeLeft)
      (h : quizTick st now = some st') :
      QuizStepNE st st'
  | fireAdvance (st : QuizState) (now : Nat) (st' : QuizState)
      (h : fireAdvanceTimeout st now = some st') :
      QuizStepNE st st'

/-- States reachable from a given initial state by component steps. -/
inductive QuizReachable (init : QuizState) : QuizState → Prop
  | refl : QuizReachable init init
  | step {st st' : QuizState} :
      QuizReachable init st → QuizStep st st' → QuizReachable init st'

/-- States reachable using only expiry-free steps. -/
inductive QuizReachableNE (init : QuizState) : QuizState → Prop
  | refl : QuizReachableNE init init
  | step {st st' : QuizState} :
      QuizReachableNE init st → QuizStepNE st st' → QuizReachableNE init st'

/-! ## Invariants (statements) -/

/-- Every interval the component ever creates is created on a render where
the selection was just cleared and no result is shown (the mount render, or
the commit of `handleNextQuestion`), so its captured closure always holds
`capSelected = none` and `capShowResult = false`. -/
def quizTimerInv (st : QuizState) : Prop :=
  ∀ cl : TimerClosure, st.timer = some cl →
    cl.capSelected = none ∧ cl.capShowResult = false

/-- Invariant of expiry-free sessions, relating the records list, the
current index, the lifecycle flags and the pending auto-advance queue. -/
def quizInvNE (st : QuizState) : Prop :=
  st.results.length = st.currentQuestionIndex + (if st.showResult then 1 else 0)
  ∧ (st.isComplete = false → st.currentQuestionIndex < st.questions.length)
  ∧ (st.isComplete = true → st.showResult = true
      ∧ st.results.length = st.questions.length
      ∧ st.currentQuestionIndex + 1 = st.questions.length)
  ∧ st.results.map (·.questionId) =
      (st.questions.take st.results.length).map (·.id)
  ∧ (st.pending = []
      ∨ (st.showResult = true ∧ st.isComplete = false
          ∧ st.pending = [{ capIndex := st.currentQuestionIndex
                            capResults := st.results }]))

/-! ## Executable events

An executable mirror of `QuizStep`, used to compute concrete reachable
states. -/

/-- Externally triggered events of the Quiz component. -/
inductive QuizEvent
  | select (i : Nat)
  | submitClick (now : Nat)
  | tick (now : Nat)
  | fireAdvance (now : Nat)
  deriving Repr, DecidableEq

/-- Executable form of `QuizStep`: applies one event when its guard holds. -/
def applyQuizEvent (st : QuizState) : QuizEvent → Option QuizState
  | .select i => some (handleAnswerSelect st i)
  | .submitClick now =>
      if st.showResult = false ∧ st.selectedAnswer.isSome = true
          ∧ st.isComplete = false then
        handleAnswerSubmit st now
      else none
  | .tick now => quizTick st now
  | .fireAdvance now => fireAdvanceTimeout st now

/-- Executable event sequencing. -/
def runQuizEvents (st : QuizState) : List QuizEvent → Option QuizState
  | [] => some st
  | e :: es => (applyQuizEvent st e).bind fun st' => runQuizEvents st' es

/-- Executable form of `QuizStepNE`: as `applyQuizEvent`, but a tick is
accepted only while `timeLeft > 1`. -/
def applyQuizEventNE (st : QuizState) : QuizEvent → Option QuizState
  | .tick now => if 1 < st.timeLeft then quizTick st now else none
  | e => applyQuizEvent st e

/-- Executable expiry-free event sequencing. -/
def runQuizEventsNE (st : QuizState) : List QuizEvent → Option QuizState
  | [] => some st
  | e :: es => (applyQuizEventNE st e).bind fun st' => runQuizEventsNE st' es

/-! ## The error contract of the specification -/

/-- Error taxonomy of the specification (§4.1, §7). The quiz code itself
defines no error values and none of its handlers can throw; this type exists
to state refinement comparisons between the spec's error contract and the
code's actual (never-failing) behavior. -/
inductive QuizError
  | invalidAnswerIndex
  | questionAlreadyLocked
  | invalidStateTransition
  | notComplete
  deriving Repr, DecidableEq

/-- Lift of `handleAnswerSelect` into the spec's error monad: the TS handler
returns `void` and never throws, so the lift always succeeds. -/
def handleAnswerSelectE (st : QuizState) (answerIndex : Nat) :
    Except QuizError QuizState :=
  Except.ok (handleAnswerSelect st answerIndex)

/-- Lift of `handleNextQuestion` into the spec's error monad: the TS handler
never throws, so the lift always succeeds. -/
def handleNextQuestionE (st : QuizState) : Except QuizError QuizState :=
  Except.ok (handleNextQuestion st)

/-! ## Concrete example data used by witnesses and counterexamples -/

/-- Example question matching the spec scenario (correct options [1,0,2]). -/
def wQ1 : QuizQuestion :=
  { id := "q1", question := "one", options := ["a", "b", "c"], correctAnswer := 1 }

def wQ2 : QuizQuestion :=
  { id := "q2", question := "two", options := ["a", "b"], correctAnswer := 0 }

def wQ3 : QuizQuestion :=
  { id := "q3", question := "three", options := ["x", "y", "z"], correctAnswer := 2 }

/-- Two-question quiz: option 1 selected and submitted on the first
question. -/
def wSubmitted12Events : List QuizEvent :=
  [.select 1, .submitClick 1000]

/-- Concrete session state: two-question quiz, option 1 selected and
submitted on the first question (result shown, one auto-advance pending). -/
def wSubmitted12 : QuizState :=
  (runQuizEvents (initQuizState [wQ1, wQ2] 30 0) wSubmitted12Events).getD
    (initQuizState [wQ1, wQ2] 30 0)

/-- State after the pending auto-advance of `wSubmitted12` fires. -/
def wAdvanced12 : QuizState :=
  (fireAdvanceTimeout wSubmitted12 3000).getD wSubmitted12

/-- One-question quiz answered correctly and auto-completed. -/
def wComplete1Events : List QuizEvent :=
  [.select 1, .submitClick 1000, .fireAdvance 3000]

/-- Concrete completed session: one question, answered correctly, completion
timeout fired. -/
def wComplete1 : QuizState :=
  (runQuizEvents (initQuizState [wQ1] 30 0) wComplete1Events).getD
    (initQuizState [wQ1] 30 0)

/-- Expiry-free event list realizing the spec scenario on `[wQ1, wQ2, wQ3]`
(correct options [1,0,2], selections [1,1,2]): each question is selected and
submitted by click, with the single scheduled auto-advance fired in
between. -/
def wRun3Events : List QuizEvent :=
  [.select 1, .submitClick 1000, .fireAdvance 3000,
   .select 1, .submitClick 4000, .fireAdvance 6000,
   .select 2, .submitClick 7000]

/-- Concrete three-question run realizing the spec scenario: state after
submitting the answer to the last question (2 of 3 correct, completion
timeout still pending). -/
def wRun3Pre : QuizState :=
  (runQuizEvents (initQuizState [wQ1, wQ2, wQ3] 30 0) wRun3Events).getD
    (initQuizState [wQ1, wQ2, wQ3] 30 0)

/-- State of the spec-scenario run after the completion timeout fires. -/
def wRun3Done : QuizState :=
  (fireAdvanceTimeout wRun3Pre 9000).getD wRun3Pre

/-- Two-question quiz with budget 5 s: the first question is answered by
click at 500 ms (the interval ticks on at 1 and 2 s), the auto-advance
fires at 2.5 s — creating the second question's interval, whose closure
captures the still-unreset `startTime` 0 of the first question — the user
tentatively selects option 0 (the correct one for `wQ2`), and the interval
counts down to `timeLeft = 1` with ticks at 3.5, 4.5, 5.5 and 6.5 s. The
next tick expires the question. -/
def wStaleEvents : List QuizEvent :=
  [.select 1, .submitClick 500, .tick 1000, .tick 2000, .fireAdvance 2500,
   .select 0, .tick 3500, .tick 4500, .tick 5500, .tick 6500]

/-- The state one tick before the second question's timer expires, with a
tentative (correct) selection made. -/
def wStalePre : QuizState :=
  (runQuizEvents (initQuizState [wQ1, wQ2] 5 0) wStaleEvents).getD
    (initQuizState [wQ1, wQ2] 5 0)

/-- Three-question quiz with budget 5 s and no user input: the first
question's timer counts down (ticks at 1..4 s) and expires at 5 s,
recording (null, false); the interval keeps firing at 6 s (`timeLeft`
stays 0), re-submitting through the stale closure and scheduling a SECOND
auto-advance; the first auto-advance (scheduled at expiry) fires at 7 s. -/
def wSkipEvents : List QuizEvent :=
  [.tick 1000, .tick 2000, .tick 3000, .tick 4000, .tick 5000, .tick 6000,
   .fireAdvance 7000]

/-- State after the first auto-advance: on question 1 (index 1), with the
duplicate auto-advance scheduled by the post-expiry re-submission still
pending. -/
def wSkipPre : QuizState :=
  (runQuizEvents (initQuizState [wQ1, wQ2, wQ3] 5 0) wSkipEvents).getD
    (initQuizState [wQ1, wQ2, wQ3] 5 0)

/-- State after the duplicate auto-advance fires: the index jumps to 2,
skipping the second question, while only one record exists. -/
def wSkipState : QuizState :=
  (fireAdvanceTimeout wSkipPre 8000).getD wSkipPre

/-- Continuation of the `wSkip` run to completion: after the double advance
the user answers the third question correctly by click; the completion
timeout fires at 12.5 s. The skipped second question never receives a
record, so the quiz completes with 2 records for 3 questions. -/
def wExpiryEvents : List QuizEvent :=
  wSkipEvents ++
    [.fireAdvance 8000, .tick 9000, .tick 10000, .select 2,
     .submitClick 10500, .tick 11000, .tick 12000, .fireAdvance 12500]

/-- Completed state of the expiry run: 2 records, 1 of them correct, for a
3-question quiz. -/
def wExpiryFinal : QuizState :=
  (runQuizEvents (initQuizState [wQ1, wQ2, wQ3] 5 0) wExpiryEvents).getD
    (initQuizState [wQ1, wQ2, wQ3] 5 0)

/-! ## TextToSpeechService (part_004, lines 921-1045)

The `speak` method (lines 937-984) runs, inside one try/catch:
fetch of `POST {baseUrl}/text-to-speech/{voice}`; a `throw` when
`!response.ok`; `response.blob()`; then it RETURNS a new Promise whose
executor wires `audio.onended` to `resolve`, `audio.onerror` to `reject`,
and `audio.play().catch(reject)`. The catch block (lines 979-983) therefore
sees the fetch rejection, the not-ok throw and the blob decode rejection —
for those it logs and calls `fallbackSpeak`, and `speak` resolves normally —
but it can NOT see a rejection of the returned playback promise, which
reaches the caller unhandled. The asynchronous environment is modelled by
explicit outcome values. -/

/-- Outcome of the `fetch` call: rejection, or a response with its `ok` flag. -/
inductive FetchOutcome
  | networkError
  | response (ok : Bool)
  deriving Repr, DecidableEq

/-- Outcome of `response.blob()`. -/
inductive BlobOutcome
  | decodeError
  | ok
  deriving Repr, DecidableEq

/-- Outcome of the audio playback: the `ended` event, the `error` event, or a
rejection of `audio.play()`. -/
inductive PlaybackOutcome
  | ended
  | error
  | playRejected
  deriving Repr, DecidableEq

/-- Environment behavior for one `speak` call. -/
structure SpeakEnv where
  fetch : FetchOutcome
  blob : BlobOutcome
  playback : PlaybackOutcome
  deriving Repr, DecidableEq

/-- How the operation returned by `speak` settles for the caller. -/
inductive SpeakResult
  | resolvedAfterPlayback
  | resolvedViaFallback
  | rejected
  deriving Repr, DecidableEq

/-- Method `TextToSpeechService.speak` (part_004, lines 937-984), as the
settlement of the value returned to the caller in each environment. -/
def speak (env : SpeakEnv) : SpeakResult :=
  match env.fetch with
  | .networkError => .resolvedViaFallback
  | .response ok =>
      if !ok then .resolvedViaFallback
      else
        match env.blob with
        | .decodeError => .resolvedViaFallback
        | .ok =>
            match env.playback with
            | .ended => .resolvedAfterPlayback
            | .error => .rejected
            | .playRejected => .rejected

/-- Observable events of one `speak` call, in temporal order. -/
inductive SpeakEvent
  | fetchRequested
  | fallbackStarted
  | playbackStarted
  | playbackEnded
  | promiseResolved
  | promiseRejected
  deriving Repr, DecidableEq

/-- Temporal trace of `speak` (part_004, lines 937-984): the request is
issued first; on a caught failure `fallbackSpeak` runs and the call resolves;
on playback success the resolution is performed by the `onended` handler, so
it strictly follows the end of playback; on playback failure the returned
promise rejects. -/
def speakTrace (env : SpeakEnv) : List SpeakEvent :=
  match env.fetch with
  | .networkError => [.fetchRequested, .fallbackStarted, .promiseResolved]
  | .response ok =>
      if !ok then [.fetchRequested, .fallbackStarted, .promiseResolved]
      else
        match env.blob with
        | .decodeError => [.fetchRequested, .fallbackStarted, .promiseResolved]
        | .ok =>
            match env.playback with
            | .ended => [.fetchRequested, .playbackStarted, .playbackEnded,
                .promiseResolved]
            | .error => [.fetchRequested, .playbackStarted, .promiseRejected]
            | .playRejected => [.fetchRequested, .playbackStarted,
                .promiseRejected]

/-! ## Module singleton and component dispatch (C8) -/

/-- State held by a `TextToSpeechService` instance (part_004, lines 927-935):
the constructor stores only the API key; base URL, default voice and default
model are fixed constants. -/
structure TextToSpeechService where
  apiKey : String
  deriving Repr, DecidableEq

/-- Module-level singleton slot of textToSpeech.ts (part_004, line 1037):
`let ttsService: TextToSpeechService | null = null`. -/
structure TTSModule where
  ttsService : Option TextToSpeechService
  deriving Repr, DecidableEq

/-- Initial module state: no service configured. -/
def initialTTSModule : TTSModule := { ttsService := none }

/-- Function `initTTS` (part_004, lines 1039-1042): builds a service from the
key and installs it in the singleton slot. -/
def initTTS (apiKey : String) (m : TTSModule) : TextToSpeechService × TTSModule :=
  ({ apiKey := apiKey }, { ttsService := some { apiKey := apiKey } })

/-- Function `getTTS` (part_004, lines 1044-1045). -/
def getTTS (m : TTSModule) : Option TextToSpeechService :=
  m.ttsService

/-- TTS-related `useState` cells of the `LanguageLearning` component
(part_003, lines 64-65): the key text field and the `ttsEnabled` flag. -/
structure LLComponentState where
  elevenLabsKey : String
  ttsEnabled : Bool
  deriving Repr, DecidableEq

/-- Mount effect of `LanguageLearning` (part_003, lines 68-79): reads the
saved key; only a non-null, non-empty key (JS truthiness) initializes the
singleton and enables remote TTS. -/
def mountLanguageLearning (savedKey : Option String) (m : TTSModule) :
    LLComponentState × TTSModule :=
  match savedKey with
  | some k =>
      if k ≠ "" then
        ({ elevenLabsKey := k, ttsEnabled := true }, (initTTS k m).2)
      else ({ elevenLabsKey := "", ttsEnabled := false }, m)
  | none => ({ elevenLabsKey := "", ttsEnabled := false }, m)

/-- Modelled from the spec: the operation `isRemoteEnabled()` named by the
spec does not exist in the code; its observable counterpart is the
component's `ttsEnabled` flag, which gates every remote TTS attempt in
`handleSpeak` (part_003, line 82). -/
def isRemoteEnabled (s : LLComponentState) : Bool :=
  s.ttsEnabled

/-- Externally visible actions of a `handleSpeak` call. `remoteSpeak` is any
entry into `TextToSpeechService.speak` (which starts with the network
request); `browserSynthesis` is use of the local `speechSynthesis` API. -/
inductive SpeakAction
  | browserSynthesis (text : String)
  | remoteSpeak (text : String)
  deriving Repr, DecidableEq

/-- Handler `handleSpeak` of `LanguageLearning` (part_003, lines 81-107), as
the list of actions it performs: when `ttsEnabled` is false it uses only the
browser synthesizer and returns; otherwise it calls the singleton service's
`speak`, adding the browser fallback only when that call's promise rejects
(the `catch` at lines 97-105). The browser synthesizer is assumed available
(`'speechSynthesis' in window`). -/
def handleSpeak (s : LLComponentState) (m : TTSModule) (text : String)
    (env : SpeakEnv) : List SpeakAction :=
  if s.ttsEnabled = false then [.browserSynthesis text]
  else
    match getTTS m with
    | none => []
    | some _ =>
        match speak env with
        | .rejected => [.remoteSpeak text, .browserSynthesis text]
        | _ => [.remoteSpeak text]

/-! ## getVoices (part_004, lines 995-1013) -/

/-- Environment outcome of one `getVoices` call (part_004, lines 995-1013):
`fetchError` covers a rejected `fetch` or a rejected `response.json()`
(both are caught); `response ok voices` is a settled response with its `ok`
flag and the `voices` field of the parsed body (`none` when absent or
falsy). Voices are kept abstract as strings. -/
inductive VoicesOutcome
  | fetchError
  | response (ok : Bool) (voices : Option (List String))
  deriving Repr, DecidableEq

/-- Method `TextToSpeechService.getVoices` (part_004, lines 995-1013): any
caught failure yields `[]` (the catch block), a non-ok response throws into
the same catch, and a successful response yields `data.voices || []`. -/
def getVoices (env : VoicesOutcome) : List String :=
  match env with
  | .fetchError => []
  | .response ok voices => if !ok then [] else voices.getD []

/-! ## Flashcard navigation (part_003, lines 264-279; Flashcard.tsx) -/

/-- Callback `onNext` of the flashcard view (part_003, line 269; the same
update is wired to the Next button and the left swipe in Flashcard.tsx):
`setCurrentCardIndex(prev => Math.min(prev + 1, flashcards.length - 1))`. -/
def onNextCard (len i : Nat) : Nat :=
  min (i + 1) (len - 1)

/-- Callback `onPrevious` of the flashcard view (part_003, line 273):
`setCurrentCardIndex(prev => Math.max(prev - 1, 0))` (truncated subtraction
on `Nat` matches `Math.max(prev - 1, 0)` for natural `prev`). -/
def onPreviousCard (i : Nat) : Nat :=
  max (i - 1) 0

/-- A navigation event: Next/right-swipe or Previous/left-swipe. -/
inductive CardNav
  | next
  | prev
  deriving Repr, DecidableEq

/-- One navigation step on the current index. -/
def navStep (len i : Nat) : CardNav → Nat
  | .next => onNextCard len i
  | .prev => onPreviousCard i

/-- Index after a sequence of navigation events, starting from index `i`
(the view starts at 0: `setCurrentCardIndex(0)`, part_003 line 121). -/
def navRun (len : Nat) (evs : List CardNav) (i : Nat) : Nat :=
  evs.foldl (navStep len) i

/-! ## Inversion of the handler outcomes -/

theorem submitFrom_some {st : QuizState} {base : List QuizResult}
    {sel : Option Nat} {qIdx startT now : Nat} {st' : QuizState}
    (h : submitFrom st base sel qIdx startT now = some st') :
    ∃ q : QuizQuestion, ∃ r : QuizResult,
      st.questions[qIdx]? = some q ∧
      r = { questionId := q.id, selected := sel,
            correct := decide (sel = some q.correctAnswer),
            timeSpent := (now - startT) / 1000 } ∧
      st' = { st with
                results := base ++ [r]
                showResult := true
                pending := st.pending ++
                  [{ capIndex := qIdx, capResults := base ++ [r] }] } := by
  unfold submitFrom at h
  cases hq : st.questions[qIdx]? with
  | none => rw [hq] at h; cases h
  | some q =>
      rw [hq] at h
      simp only [Option.map_some', Option.some.injEq] at h
      exact ⟨q, _, rfl, rfl, h.symm⟩

theorem quizTick_some {st st' : QuizState} {now : Nat}
    (h : quizTick st now = some st') :
    ∃ cl : TimerClosure, st.timer = some cl ∧
      ((st.timeLeft ≤ 1 ∧ ∃ s : QuizState, handleTimeUp cl st now = some s
          ∧ st' = { s with timeLeft := 0 })
       ∨ (¬ st.timeLeft ≤ 1 ∧ st' = { st with timeLeft := st.timeLeft - 1 })) := by
  unfold quizTick at h
  cases ht : st.timer with
  | none => simp only [ht] at h; cases h
  | some cl =>
      simp only [ht] at h
      split at h
      · next hle =>
          cases hh : handleTimeUp cl st now with
          | none => rw [hh] at h; cases h
          | some s =>
              rw [hh] at h
              simp only [Option.map_some', Option.some.injEq] at h
              exact ⟨cl, rfl, Or.inl ⟨hle, s, hh, h.symm⟩⟩
      · next hgt =>
          simp only [Option.some.injEq] at h
          exact ⟨cl, rfl, Or.inr ⟨hgt, h.symm⟩⟩

theorem fireAdvanceTimeout_some {st st' : QuizState} {now : Nat}
    (h : fireAdvanceTimeout st now = some st') :
    ∃ p : PendingAdvance, ∃ rest : List PendingAdvance,
      st.pending = p :: rest ∧
      ((p.capIndex < st.questions.length - 1 ∧
          st' = questionChangeEffects
            (handleNextQuestion { st with pending := rest }) now)
       ∨ (¬ p.capIndex < st.questions.length - 1 ∧
          st' = { handleQuizComplete { st with pending := rest } p.capResults with
                    timer := none })) := by
  unfold fireAdvanceTimeout at h
  cases hp : st.pending with
  | nil => simp only [hp] at h; cases h
  | cons p rest =>
      simp only [hp] at h
      split at h
      · next hlt =>
          simp only [Option.some.injEq] at h
          exact ⟨p, rest, rfl, Or.inl ⟨hlt, h.symm⟩⟩
      · next hge =>
          simp only [Option.some.injEq] at h
          exact ⟨p, rest, rfl, Or.inr ⟨hge, h.symm⟩⟩

/-! ## Inclusion of the expiry-free fragment -/

theorem quizStepNE_toStep {st st' : QuizState} (h : QuizStepNE st st') :
    QuizStep st st' := by
  cases h with
  | select i => exact QuizStep.select st i
  | submitClick now st' hns hsel hnc h =>
      exact QuizStep.submitClick st now st' hns hsel hnc h
  | tickCountdown now st' hgt h => exact QuizStep.tick st now st' h
  | fireAdvance now st' h => exact QuizStep.fireAdvance st now st' h

theorem quizReachableNE_toReachable {init st : QuizState}
    (h : QuizReachableNE init st) : QuizReachable init st := by
  induction h with
  | refl => exact QuizReachable.refl
  | step hr hs ih => exact QuizReachable.step ih (quizStepNE_toStep hs)

/-! ## Preservation of the fixed component props -/

theorem quizStep_questions {st st' : QuizState} (h : QuizStep st st') :
    st'.questions = st.questions := by
  cases h with
  | select i =>
      unfold handleAnswerSelect
      split <;> rfl
  | submitClick now st' hns hsel hnc h =>
      obtain ⟨q, r, hq, hr, rfl⟩ := submitFrom_some h
      rfl
  | tick now st' h =>
      obtain ⟨cl, ht, hcase⟩ := quizTick_some h
      rcases hcase with ⟨hle, s, hs, rfl⟩ | ⟨hgt, rfl⟩
      · unfold handleTimeUp at hs
        split at hs
        · simp only [Option.some.injEq] at hs
          subst hs
          rfl
        · obtain ⟨q, r, hq, hr, rfl⟩ := submitFrom_some hs
          rfl
      · rfl
  | fireAdvance now st' h =>
      obtain ⟨p, rest, hp, hcase⟩ := fireAdvanceTimeout_some h
      rcases hcase with ⟨hlt, rfl⟩ | ⟨hge, rfl⟩ <;> rfl

theorem quizReachable_questions {init st : QuizState}
    (h : QuizReachable init st) : st.questions = init.questions := by
  induction h with
  | refl => rfl
  | step hr hs ih => rw [quizStep_questions hs, ih]

/-! ## The timer-closure invariant -/

theorem quizTimerInv_init (questions : List QuizQuestion) (timeLimit now : Nat) :
    quizTimerInv (initQuizState questions timeLimit now) := by
  intro cl hcl
  simp only [initQuizState, Option.some.injEq] at hcl
  subst hcl
  exact ⟨rfl, rfl⟩

theorem quizTimerInv_step {st st' : QuizState} (hinv : quizTimerInv st)
    (hstep : QuizStep st st') : quizTimerInv st' := by
  cases hstep with
  | select i =>
      intro cl hcl
      apply hinv cl
      unfold handleAnswerSelect at hcl
      split at hcl <;> exact hcl
  | submitClick now st' hns hsel hnc h =>
      obtain ⟨q, r, hq, hr, rfl⟩ := submitFrom_some h
      intro cl hcl
      exact hinv cl hcl
  | tick now st' h =>
      obtain ⟨cl0, ht, hcase⟩ := quizTick_some h
      rcases hcase with ⟨hle, s, hs, rfl⟩ | ⟨hgt, rfl⟩
      · unfold handleTimeUp at hs
        split at hs
        · simp only [Option.some.injEq] at hs
          subst hs
          intro cl hcl
          exact hinv cl hcl
        · obtain ⟨q, r, hq, hr, rfl⟩ := submitFrom_some hs
          intro cl hcl
          exact hinv cl hcl
      · intro cl hcl
        exact hinv cl hcl
  | fireAdvance now st' h =>
      obtain ⟨p, rest, hp, hcase⟩ := fireAdvanceTimeout_some h
      rcases hcase with ⟨hlt, rfl⟩ | ⟨hge, rfl⟩
      · intro cl hcl
        simp only [questionChangeEffects, handleNextQuestion] at hcl
        split at hcl
        · cases hcl
        · simp only [Option.some.injEq] at hcl
          subst hcl
          exact ⟨rfl, rfl⟩
      · intro cl hcl
        cases hcl

theorem quizTimerInv_reachable {init st : QuizState} (hinit : quizTimerInv init)
    (h : QuizReachable init st) : quizTimerInv st := by
  induction h with
  | refl => exact hinit
  | step hr hs ih => exact quizTimerInv_step ih hs

/-! ## The expiry-free session invariant -/

theorem quizInvNE_init (questions : List QuizQuestion) (timeLimit now : Nat)
    (hne : questions ≠ []) : quizInvNE (initQuizState questions timeLimit now) := by
  refine ⟨rfl, fun _ => ?_, fun h => by simp [initQuizState] at h,
    by simp [initQuizState], Or.inl rfl⟩
  · simpa [initQuizState, List.length_pos] using hne

theorem quizInvNE_step {st st' : QuizState} (hst : quizInvNE st)
    (hstep : QuizStepNE st st') : quizInvNE st' := by
  obtain ⟨h1, h2, h3, h4, h5⟩ := hst
  cases hstep with
  | select i =>
      unfold handleAnswerSelect
      by_cases hsr : st.showResult = true
      · rw [if_pos hsr]
        exact ⟨h1, h2, h3, h4, h5⟩
      · rw [if_neg hsr]
        exact ⟨h1, h2, h3, h4, h5⟩
  | submitClick now st' hns hsel hnc h =>
      obtain ⟨q, r, hq, hr, rfl⟩ := submitFrom_some h
      have hpe : st.pending = [] := by
        rcases h5 with h5 | ⟨hsr2, hnc2, hp2⟩
        · exact h5
        · rw [hns] at hsr2; cases hsr2
      have hlen : st.results.length = st.currentQuestionIndex := by
        simpa [hns] using h1
      refine ⟨?_, ?_, ?_, ?_, ?_⟩
      · simp [hlen]
      · intro _
        exact h2 hnc
      · intro hc
        simp only at hc
        rw [hnc] at hc
        cases hc
      · have hget : st.questions[st.results.length]? = some q := by
          rw [hlen]; exact hq
        subst hr
        simp only [List.map_append, List.length_append, List.map_cons,
          List.map_nil, List.length_cons, List.length_nil]
        rw [List.take_succ, hget]
        simp [h4]
      · right
        refine ⟨rfl, hnc, ?_⟩
        simp [hpe]
  | tickCountdown now st' hgt h =>
      obtain ⟨cl, ht, hcase⟩ := quizTick_some h
      rcases hcase with ⟨hle, _⟩ | ⟨hgt2, rfl⟩
      · exact absurd hle (by omega)
      · exact ⟨h1, h2, h3, h4, h5⟩
  | fireAdvance now st' h =>
      obtain ⟨p, rest, hp, hcase⟩ := fireAdvanceTimeout_some h
      rcases h5 with h5 | ⟨hsr, hnc, hpe⟩
      · rw [h5] at hp; cases hp
      · rw [hpe] at hp
        injection hp with hpp hrest
        have hlen : st.results.length = st.currentQuestionIndex + 1 := by
          simpa [hsr] using h1
        have hlt2 : st.currentQuestionIndex < st.questions.length := h2 hnc
        rcases hcase with ⟨hlt, rfl⟩ | ⟨hge, rfl⟩
        · have hltI : st.currentQuestionIndex < st.questions.length - 1 := by
            rw [← hpp] at hlt
            exact hlt
          refine ⟨?_, ?_, ?_, ?_, ?_⟩
          · simp [questionChangeEffects, handleNextQuestion, hlen]
          · intro _
            simp only [questionChangeEffects, handleNextQuestion]
            omega
          · intro hc
            simp only [questionChangeEffects, handleNextQuestion] at hc
            rw [hnc] at hc
            cases hc
          · simpa [questionChangeEffects, handleNextQuestion] using h4
          · left
            simp [questionChangeEffects, handleNextQuestion, hrest]
        · have hgeI : ¬ st.currentQuestionIndex < st.questions.length - 1 := by
            rw [← hpp] at hge
            exact hge
          have hidx : st.currentQuestionIndex + 1 = st.questions.length := by
            omega
          refine ⟨?_, ?_, ?_, ?_, ?_⟩
          · simpa [handleQuizComplete] using h1
          · intro hc
            simp only [handleQuizComplete] at hc
            cases hc
          · intro _
            refine ⟨hsr, ?_, ?_⟩
            · simp only [handleQuizComplete]
              omega
            · simpa [handleQuizComplete] using hidx
          · simpa [handleQuizComplete] using h4
          · left
            simp [handleQuizComplete, hrest]

theorem quizInvNE_reachable {init st : QuizState} (hinit : quizInvNE init)
    (h : QuizReachableNE init st) : quizInvNE st := by
  induction h with
  | refl => exact hinit
  | step hr hs ih => exact quizInvNE_step ih hs

/-! ## Soundness of the executable events -/

theorem applyQuizEvent_step {st st' : QuizState} {e : QuizEvent}
    (h : applyQuizEvent st e = some st') : QuizStep st st' := by
  cases e with
  | select i =>
      simp only [applyQuizEvent, Option.some.injEq] at h
      subst h
      exact QuizStep.select st i
  | submitClick now =>
      simp only [applyQuizEvent] at h
      split at h
      · next hc => exact QuizStep.submitClick st now st' hc.1 hc.2.1 hc.2.2 h
      · cases h
  | tick now =>
      simp only [applyQuizEvent] at h
      exact QuizStep.tick st now st' h
  | fireAdvance now =>
      simp only [applyQuizEvent] at h
      exact QuizStep.fireAdvance st now st' h

theorem applyQuizEventNE_stepNE {st st' : QuizState} {e : QuizEvent}
    (h : applyQuizEventNE st e = some st') : QuizStepNE st st' := by
  cases e with
  | select i =>
      simp only [applyQuizEventNE, applyQuizEvent, Option.some.injEq] at h
      subst h
      exact QuizStepNE.select st i
  | submitClick now =>
      simp only [applyQuizEventNE, applyQuizEvent] at h
      split at h
      · next hc => exact QuizStepNE.submitClick st now st' hc.1 hc.2.1 hc.2.2 h
      · cases h
  | tick now =>
      simp only [applyQuizEventNE] at h
      split at h
      · next hgt => exact QuizStepNE.tickCountdown st now st' hgt h
      · cases h
  | fireAdvance now =>
      simp only [applyQuizEventNE, applyQuizEvent] at h
      exact QuizStepNE.fireAdvance st now st' h

theorem quizReachable_head {s1 s2 s3 : QuizState} (h : QuizStep s1 s2)
    (hr : QuizReachable s2 s3) : QuizReachable s1 s3 := by
  induction hr with
  | refl => exact QuizReachable.step QuizReachable.refl h
  | step hr hs ih => exact QuizReachable.step ih hs

theorem quizReachableNE_head {s1 s2 s3 : QuizState} (h : QuizStepNE s1 s2)
    (hr : QuizReachableNE s2 s3) : QuizReachableNE s1 s3 := by
  induction hr with
  | refl => exact QuizReachableNE.step QuizReachableNE.refl h
  | step hr hs ih => exact QuizReachableNE.step ih hs

theorem runQuizEvents_reachable {st st' : QuizState} (es : List QuizEvent)
    (h : runQuizEvents st es = some st') : QuizReachable st st' := by
  induction es generalizing st with
  | nil =>
      simp only [runQuizEvents, Option.some.injEq] at h
      subst h
      exact QuizReachable.refl
  | cons e es ih =>
      simp only [runQuizEvents] at h
      cases hA : applyQuizEvent st e with
      | none => rw [hA] at h; cases h
      | some stm =>
          rw [hA] at h
          exact quizReachable_head (applyQuizEvent_step hA) (ih h)

theorem runQuizEventsNE_reachable {st st' : QuizState} (es : List QuizEvent)
    (h : runQuizEventsNE st es = some st') : QuizReachableNE st st' := by
  induction es generalizing st with
  | nil =>
      simp only [runQuizEventsNE, Option.some.injEq] at h
      subst h
      exact QuizReachableNE.refl
  | cons e es ih =>
      simp only [runQuizEventsNE] at h
      cases hA : applyQuizEventNE st e with
      | none => rw [hA] at h; cases h
      | some stm =>
          rw [hA] at h
          exact quizReachableNE_head (applyQuizEventNE_stepNE hA) (ih h)

/-! ## Reachability of the example states -/

theorem wSubmitted12_reachable :
    QuizReachable (initQuizState [wQ1, wQ2] 30 0) wSubmitted12 :=
  runQuizEvents_reachable wSubmitted12Events (by decide)

theorem wComplete1_reachable :
    QuizReachable (initQuizState [wQ1] 30 0) wComplete1 :=
  runQuizEvents_reachable wComplete1Events (by decide)

theorem wStalePre_reachable :
    QuizReachable (initQuizState [wQ1, wQ2] 5 0) wStalePre :=
  runQuizEvents_reachable wStaleEvents (by decide)

theorem wSkipPre_reachable :
    QuizReachable (initQuizState [wQ1, wQ2, wQ3] 5 0) wSkipPre :=
  runQuizEvents_reachable wSkipEvents (by decide)

theorem wExpiryFinal_reachable :
    QuizReachable (initQuizState [wQ1, wQ2, wQ3] 5 0) wExpiryFinal :=
  runQuizEvents_reachable wExpiryEvents (by decide)

theorem wRun3Pre_reachableNE :
    QuizReachableNE (initQuizState [wQ1, wQ2, wQ3] 30 0) wRun3Pre :=
  runQuizEventsNE_reachable wRun3Events (by decide)

/-! ## C5: records/index invariant after advance -/

/-- Counterexample to C5: in the reachable run `wSkipEvents` (first question
expires; the stale interval re-submits one second later and schedules a
second auto-advance), the duplicate advance fires at 8 s and increments the
index to 2 while only one record exists — immediately after an advance,
`len(records) = 1 ≠ 2 = currentIndex`, and the skipped second question never
receives a record. -/
theorem records_invariant_counterexample :
    runQuizEvents (initQuizState [wQ1, wQ2, wQ3] 5 0) wSkipEvents = some wSkipPre
    ∧ fireAdvanceTimeout wSkipPre 8000 = some wSkipState
    ∧ wSkipState.currentQuestionIndex = 2
    ∧ wSkipState.results.length = 1
    ∧ ¬ wSkipState.results.length = wSkipState.currentQuestionIndex := by
  decide

/-- C5 (amended): in sessions where no per-question timer expires (every
question finalized exactly once by explicit submission), immediately after
every advance the number of answer records equals the new current index, the
advance itself adds no record, the index grows by exactly one, and the
records correspond one-to-one to the questions advanced past. When a timer
expires, the stale interval re-submits every subsequent tick and schedules
one auto-advance per re-submission, so an advance can leave
`len(records) < currentIndex`, skipping a question without a record. -/
theorem records_length_eq_index_after_advance
    (questions : List QuizQuestion) (timeLimit now0 : Nat)
    (hne : questions ≠ []) {st : QuizState}
    (hr : QuizReachableNE (initQuizState questions timeLimit now0) st)
    {now : Nat} {st' : QuizState}
    (h : fireAdvanceTimeout st now = some st')
    (hnc : st.isComplete = false) (hnc2 : st'.isComplete = false) :
    st'.results.length = st'.currentQuestionIndex
    ∧ st'.currentQuestionIndex = st.currentQuestionIndex + 1
    ∧ st'.results = st.results
    ∧ st'.results.map (·.questionId) =
        (questions.take st'.currentQuestionIndex).map (·.id) := by
  have hinv : quizInvNE st :=
    quizInvNE_reachable (quizInvNE_init questions timeLimit now0 hne) hr
  obtain ⟨h1, h2, h3, h4, h5⟩ := hinv
  have hq : st.questions = questions := by
    simpa [initQuizState] using
      quizReachable_questions (quizReachableNE_toReachable hr)
  obtain ⟨p, rest, hp, hcase⟩ := fireAdvanceTimeout_some h
  rcases h5 with h5 | ⟨hsr, hnc0, hpe⟩
  · rw [h5] at hp; cases hp
  · rw [hpe] at hp
    injection hp with hpp hrest
    have hlen : st.results.length = st.currentQuestionIndex + 1 := by
      simpa [hsr] using h1
    rcases hcase with ⟨hlt, rfl⟩ | ⟨hge, rfl⟩
    · refine ⟨?_, rfl, rfl, ?_⟩
      · simp [questionChangeEffects, handleNextQuestion, hlen]
      · simp only [questionChangeEffects, handleNextQuestion]
        rw [h4, hlen, hq]
    · exfalso
      simp only [handleQuizComplete] at hnc2
      cases hnc2

/-- Witness for the amended C5: the concrete click-driven two-question
session; after its (single) auto-advance fires, one record exists and the
index is 1. -/
theorem records_length_eq_index_after_advance_witness :
    wAdvanced12.results.length = wAdvanced12.currentQuestionIndex :=
  (records_length_eq_index_after_advance [wQ1, wQ2] 30 0 (by decide)
    (runQuizEventsNE_reachable wSubmitted12Events
      (show runQuizEventsNE (initQuizState [wQ1, wQ2] 30 0) wSubmitted12Events
          = some wSubmitted12 by decide))
    (show fireAdvanceTimeout wSubmitted12 3000 = some wAdvanced12 by decide)
    (by decide) (by decide)).1

/-! ## C1: final score -/

/-- Counterexample to C1: in the reachable run `wExpiryEvents` (first
question expires, the stale re-submission double-advances past the second
question, the third is answered correctly), the quiz completes with 2
records for 3 questions; the reported score is
`Math.round(100 * 1 / 2) = 50`, while the claimed value
`round(100 * correctCount / totalQuestions) = round(100 * 1 / 3)` is 33. -/
theorem final_score_counterexample :
    runQuizEvents (initQuizState [wQ1, wQ2, wQ3] 5 0) wExpiryEvents
        = some wExpiryFinal
    ∧ wExpiryFinal.isComplete = true
    ∧ wExpiryFinal.completions = [wExpiryFinal.results]
    ∧ wExpiryFinal.results.length = 2
    ∧ countCorrect wExpiryFinal.results = 1
    ∧ completionScore wExpiryFinal.results = 50
    ∧ mathRound ((countCorrect wExpiryFinal.results : ℚ) / ((3 : Nat) : ℚ) * 100)
        = 33
    ∧ (50 : ℤ) ≠ 33 := by
  refine ⟨by decide, by decide, by decide, by decide, by decide, ?_, ?_, by decide⟩
  · have hc : countCorrect wExpiryFinal.results = 1 := by decide
    have hl : wExpiryFinal.results.length = 2 := by decide
    rw [completionScore, hc, hl]
    norm_num [mathRound]
  · have hc : countCorrect wExpiryFinal.results = 1 := by decide
    rw [hc]
    norm_num [mathRound]

/-- C1 (amended): the completing timeout reports the records accumulated at
the completing submission, and in sessions where no per-question timer
expires (every question finalized exactly once by explicit submission) those
records number exactly the questions, so the reported score
`completionScore` equals `Math.round(100 * correctCount / totalQuestions)`
for every non-empty question list. -/
theorem final_score_eq_round_correct_over_total
    (questions : List QuizQuestion) (timeLimit now0 : Nat)
    (hne : questions ≠ []) {st : QuizState}
    (hr : QuizReachableNE (initQuizState questions timeLimit now0) st)
    {now : Nat} {st' : QuizState}
    (h : fireAdvanceTimeout st now = some st')
    (hnc : st.isComplete = false) (hc : st'.isComplete = true) :
    st'.completions = st.completions ++ [st.results]
    ∧ st.results.length = questions.length
    ∧ completionScore st.results =
        mathRound ((countCorrect st.results : ℚ) / (questions.length : ℚ) * 100) := by
  have hinv : quizInvNE st :=
    quizInvNE_reachable (quizInvNE_init questions timeLimit now0 hne) hr
  obtain ⟨h1, h2, h3, h4, h5⟩ := hinv
  have hqs : st.questions = questions := by
    simpa [initQuizState] using
      quizReachable_questions (quizReachableNE_toReachable hr)
  obtain ⟨p, rest, hp, hcase⟩ := fireAdvanceTimeout_some h
  rcases h5 with h5 | ⟨hsr, hnc0, hpe⟩
  · rw [h5] at hp; cases hp
  · rw [hpe] at hp
    injection hp with hpp hrest
    have hlen : st.results.length = st.currentQuestionIndex + 1 := by
      simpa [hsr] using h1
    have hlt2 : st.currentQuestionIndex < st.questions.length := h2 hnc
    rcases hcase with ⟨hlt, rfl⟩ | ⟨hge, rfl⟩
    · exfalso
      simp only [questionChangeEffects, handleNextQuestion] at hc
      rw [hnc] at hc
      cases hc
    · have hgeI : ¬ st.currentQuestionIndex < st.questions.length - 1 := by
        rw [← hpp] at hge
        exact hge
      have hlenq : st.results.length = questions.length := by
        rw [← hqs]
        omega
      refine ⟨?_, hlenq, ?_⟩
      · simp only [handleQuizComplete, ← hpp]
      · unfold completionScore
        rw [hlenq]

/-- Witness for the amended C1, realizing the spec example on the expiry-free
spec-scenario run (correct options [1,0,2], selections [1,1,2]): 2 correct
out of 3 questions gives a reported score of round(66.67) = 67. -/
theorem final_score_eq_round_correct_over_total_witness :
    completionScore wRun3Pre.results =
        mathRound ((countCorrect wRun3Pre.results : ℚ) / ((3 : Nat) : ℚ) * 100)
    ∧ countCorrect wRun3Pre.results = 2
    ∧ completionScore wRun3Pre.results = 67 := by
  have h := final_score_eq_round_correct_over_total [wQ1, wQ2, wQ3] 30 0
    (by decide) wRun3Pre_reachableNE
    (show fireAdvanceTimeout wRun3Pre 9000 = some wRun3Done by decide)
    (by decide) (by decide)
  have hmain : completionScore wRun3Pre.results =
      mathRound ((countCorrect wRun3Pre.results : ℚ) / ((3 : Nat) : ℚ) * 100) := by
    simpa using h.2.2
  have hcc : countCorrect wRun3Pre.results = 2 := by decide
  have hval : completionScore wRun3Pre.results = 67 := by
    have hl : wRun3Pre.results.length = 3 := by decide
    rw [completionScore, hcc, hl]
    norm_num [mathRound]
  exact ⟨hmain, hcc, hval⟩

/-! ## C2: timer expiry and the stale closure -/

/-- Counterexample to C2: in the reachable run `wStaleEvents`, the second
question's timer expires at 7.5 s while the user holds the tentative
(correct) selection `some 0`. The record is `(null, false, 7)` — the null
and false parts hold as the claim states, but `elapsedSeconds` is 7, not the
time budget 5: the interval closure's captured `startTime` is the first
question's baseline 0, not the 2.5 s reset. -/
theorem timeUp_elapsed_not_budget_counterexample :
    runQuizEvents (initQuizState [wQ1, wQ2] 5 0) wStaleEvents = some wStalePre
    ∧ wStalePre.selectedAnswer = some 0
    ∧ wStalePre.showResult = false
    ∧ wStalePre.timeLeft = 1
    ∧ wStalePre.timeLimit = 5
    ∧ (quizTick wStalePre 7500).map
        (fun s => s.results.map fun r => (r.selected, r.correct, r.timeSpent))
      = some [(some 1, true, 0), (none, false, 7)]
    ∧ ¬ (7 : Nat) = 5 := by
  decide

/-- C2 (amended): whenever the per-question timer expires, the question is
finalized with `selectedOptionIndex = null` and `isCorrect = false`
regardless of any tentative selection the user made before expiry — the
interval callback's captured closure always holds a null selection — while
`elapsedSeconds` is the floor of wall-clock seconds since the closure's
captured baseline (the previous question's start for non-first questions),
not necessarily the time budget. -/
theorem timeUp_records_null_regardless
    (questions : List QuizQuestion) (timeLimit now0 : Nat)
    {st : QuizState} (hr : QuizReachable (initQuizState questions timeLimit now0) st)
    (cl : TimerClosure) (ht : st.timer = some cl)
    (hle : st.timeLeft ≤ 1)
    (q : QuizQuestion) (hq : st.questions[cl.capIndex]? = some q) (now : Nat) :
    quizTick st now = some { st with
      results := cl.capResults ++
        [{ questionId := q.id, selected := none, correct := false,
           timeSpent := (now - cl.capStartTime) / 1000 }]
      showResult := true
      pending := st.pending ++
        [{ capIndex := cl.capIndex,
           capResults := cl.capResults ++
             [{ questionId := q.id, selected := none, correct := false,
                timeSpent := (now - cl.capStartTime) / 1000 }] }]
      timeLeft := 0 } := by
  obtain ⟨hsel, hsr⟩ :=
    quizTimerInv_reachable (quizTimerInv_init questions timeLimit now0) hr cl ht
  unfold quizTick
  simp only [ht]
  rw [if_pos hle]
  unfold handleTimeUp
  rw [hsr]
  simp only [Bool.false_eq_true, if_false]
  unfold submitFrom
  rw [hq, hsel]
  simp only [Option.map_some']
  have hd : decide ((none : Option Nat) = some q.correctAnswer) = false := by
    simp
  rw [ht, hd]

/-- Witness for the amended C2 at the concrete `wStalePre` state: the user's
tentative selection `some 0` (the correct option for `wQ2`) is ignored; the
expiry records `(null, false)`. -/
theorem timeUp_records_null_regardless_witness :
    wStalePre.selectedAnswer = some 0
    ∧ (quizTick wStalePre 7500).map
        (fun s => s.results.map fun r => (r.selected, r.correct))
      = some [(some 1, true), (none, false)] := by
  have h := timeUp_records_null_regardless [wQ1, wQ2] 5 0 wStalePre_reachable
    { capIndex := 1, capSelected := none, capShowResult := false,
      capResults := [{ questionId := "q1", selected := some 1, correct := true,
                       timeSpent := 0 }],
      capStartTime := 0 }
    (by decide) (by decide) wQ2 (by decide) 7500
  refine ⟨by decide, ?_⟩
  rw [h]
  decide

/-! ## C3: selecting after the question is locked -/

/-- Counterexample to C3: in a reachable locked state (result shown for the
current question), a further `handleAnswerSelect` call succeeds and leaves
the state unchanged — it is silently ignored, not a `QuestionAlreadyLocked`
failure. -/
theorem select_after_lock_counterexample :
    wSubmitted12.showResult = true
    ∧ handleAnswerSelectE wSubmitted12 2 = Except.ok wSubmitted12
    ∧ handleAnswerSelectE wSubmitted12 2 ≠
        Except.error QuizError.questionAlreadyLocked := by
  have hsr : wSubmitted12.showResult = true := by decide
  have hok : handleAnswerSelectE wSubmitted12 2 = Except.ok wSubmitted12 := by
    simp [handleAnswerSelectE, handleAnswerSelect, hsr]
  refine ⟨hsr, hok, ?_⟩
  rw [hok]
  intro h
  simp at h

/-- C3 (amended): once the question is locked (`showResult` set), any further
select call on it is silently ignored — it returns normally with the state
(including the recorded answer) unchanged; no error is raised, and in
particular the code never produces `QuestionAlreadyLocked`. -/
theorem select_after_lock_is_silently_ignored (st : QuizState) (i : Nat)
    (h : st.showResult = true) :
    handleAnswerSelectE st i = Except.ok st := by
  simp [handleAnswerSelectE, handleAnswerSelect, h]

/-- Witness for the amended C3 at the concrete locked state. -/
theorem select_after_lock_is_silently_ignored_witness :
    handleAnswerSelectE wSubmitted12 3 = Except.ok wSubmitted12 :=
  select_after_lock_is_silently_ignored wSubmitted12 3 (by decide)

/-! ## C4: advancing after completion -/

/-- Counterexample to C4: in the reachable completed state, a further call to
the advance handler succeeds (the code defines no `InvalidStateTransition`
error) and does not leave the state unchanged — it increments the current
index. -/
theorem advance_in_complete_counterexample :
    wComplete1.isComplete = true
    ∧ handleNextQuestionE wComplete1 = Except.ok (handleNextQuestion wComplete1)
    ∧ handleNextQuestionE wComplete1 ≠
        Except.error QuizError.invalidStateTransition
    ∧ (handleNextQuestion wComplete1).currentQuestionIndex ≠
        wComplete1.currentQuestionIndex := by
  refine ⟨by decide, rfl, ?_, by decide⟩
  intro h
  simp [handleNextQuestionE] at h

/-- C4 (amended): once the session is complete, further calls to the advance
handler do not fail — the code has no `InvalidStateTransition` error — and
are not a no-op: each call silently increments `currentQuestionIndex` and
clears the per-question selection and result flag, while the records and the
complete flag are unchanged. -/
theorem advance_in_complete_silently_increments (st : QuizState)
    (h : st.isComplete = true) :
    handleNextQuestionE st =
      Except.ok { st with
        currentQuestionIndex := st.currentQuestionIndex + 1
        selectedAnswer := none
        showResult := false } := rfl

/-- Witness for the amended C4 at the concrete completed state. -/
theorem advance_in_complete_silently_increments_witness :
    handleNextQuestionE wComplete1 =
      Except.ok { wComplete1 with
        currentQuestionIndex := wComplete1.currentQuestionIndex + 1
        selectedAnswer := none
        showResult := false } :=
  advance_in_complete_silently_increments wComplete1 (by decide)

/-! ## C6: fallback coverage of speak -/

/-- Counterexample to C6: when the remote call succeeds but audio playback
fails, the promise returned by `speak` rejects — the caller observes the
failure — and the local fallback is never engaged. -/
theorem speak_playback_error_counterexample :
    speak { fetch := FetchOutcome.response true, blob := BlobOutcome.ok,
            playback := PlaybackOutcome.error } = SpeakResult.rejected
    ∧ (speakTrace { fetch := FetchOutcome.response true,
                    blob := BlobOutcome.ok,
                    playback := PlaybackOutcome.error }).contains
          SpeakEvent.fallbackStarted = false := by
  decide

/-- C6 (amended): `speak` falls back to the local synthesizer and resolves
normally exactly when the remote attempt fails before playback — network
error, non-success response, or body decode error; but when the response
succeeds and audio playback then fails, the returned promise rejects and no
fallback occurs. -/
theorem speak_fallback_exactly_on_pre_playback_failure (env : SpeakEnv) :
    (speak env = SpeakResult.resolvedViaFallback ↔
      env.fetch = FetchOutcome.networkError
      ∨ env.fetch = FetchOutcome.response false
      ∨ (env.fetch = FetchOutcome.response true
          ∧ env.blob = BlobOutcome.decodeError))
    ∧ (speak env = SpeakResult.rejected ↔
      env.fetch = FetchOutcome.response true ∧ env.blob = BlobOutcome.ok
      ∧ env.playback ≠ PlaybackOutcome.ended) := by
  obtain ⟨f, b, p⟩ := env
  cases f with
  | networkError => cases b <;> cases p <;> simp [speak]
  | response ok => cases ok <;> cases b <;> cases p <;> simp [speak]

/-! ## C7: resolution after playback -/

/-- C7: when the remote call succeeds (response ok, body decoded), the value
returned by `speak` resolves normally exactly when the playback `ended`
event fires, and in that case the resolution event strictly follows the end
of playback in the call's trace — so a caller awaiting `speak` serially
observes non-overlapping audio. -/
theorem speak_resolves_only_after_playback (env : SpeakEnv)
    (hok : env.fetch = FetchOutcome.response true)
    (hblob : env.blob = BlobOutcome.ok) :
    (speak env = SpeakResult.resolvedAfterPlayback ↔
      env.playback = PlaybackOutcome.ended)
    ∧ (env.playback = PlaybackOutcome.ended →
        speakTrace env = [SpeakEvent.fetchRequested, SpeakEvent.playbackStarted,
          SpeakEvent.playbackEnded, SpeakEvent.promiseResolved]) := by
  obtain ⟨f, b, p⟩ := env
  simp only at hok hblob
  subst hok
  subst hblob
  cases p <;> simp [speak, speakTrace]

/-- Witness for C7 at the successful environment. -/
theorem speak_resolves_only_after_playback_witness :
    speakTrace { fetch := FetchOutcome.response true, blob := BlobOutcome.ok,
                 playback := PlaybackOutcome.ended }
      = [SpeakEvent.fetchRequested, SpeakEvent.playbackStarted,
         SpeakEvent.playbackEnded, SpeakEvent.promiseResolved] :=
  (speak_resolves_only_after_playback
    { fetch := FetchOutcome.response true, blob := BlobOutcome.ok,
      playback := PlaybackOutcome.ended } rfl rfl).2 rfl

/-! ## C8: unconfigured client stays local -/

/-- C8: with no API key configured (nothing saved), the client is in
permanent fallback mode — the remote-enabled observable is false, the
singleton is uninitialized — and every `handleSpeak` call performs exactly
the local browser synthesis and returns normally, attempting no remote
call in any environment. -/
theorem no_key_means_fallback_only (text : String) (env : SpeakEnv) :
    isRemoteEnabled (mountLanguageLearning none initialTTSModule).1 = false
    ∧ getTTS (mountLanguageLearning none initialTTSModule).2 = none
    ∧ handleSpeak (mountLanguageLearning none initialTTSModule).1
        (mountLanguageLearning none initialTTSModule).2 text env
        = [SpeakAction.browserSynthesis text]
    ∧ SpeakAction.remoteSpeak text ∉
        handleSpeak (mountLanguageLearning none initialTTSModule).1
          (mountLanguageLearning none initialTTSModule).2 text env := by
  refine ⟨rfl, rfl, rfl, ?_⟩
  intro hmem
  simp [handleSpeak, mountLanguageLearning, initialTTSModule] at hmem

/-! ## C9: getVoices failure behavior -/

/-- C9: `getVoices` returns the empty sequence on any failure — network
error or non-success response — rather than propagating an error, and on
success returns the provider's voice list. -/
theorem getVoices_empty_on_failure_list_on_success :
    getVoices VoicesOutcome.fetchError = []
    ∧ (∀ vs : Option (List String),
        getVoices (VoicesOutcome.response false vs) = [])
    ∧ (∀ vs : List String,
        getVoices (VoicesOutcome.response true (some vs)) = vs) :=
  ⟨rfl, fun _ => rfl, fun _ => rfl⟩

/-! ## C10: flashcard index bounds -/

theorem navStep_le {len i : Nat} (hi : i ≤ len - 1) (e : CardNav) :
    navStep len i e ≤ len - 1 := by
  cases e with
  | next => simp only [navStep, onNextCard]; omega
  | prev => simp only [navStep, onPreviousCard]; omega

theorem navRun_le (len : Nat) (evs : List CardNav) :
    ∀ i, i ≤ len - 1 → navRun len evs i ≤ len - 1 := by
  induction evs with
  | nil => intro i hi; exact hi
  | cons e evs ih =>
      intro i hi
      exact ih (navStep len i e) (navStep_le hi e)

/-- C10: for every non-empty card list, the displayed index stays within
bounds under every sequence of Next/Previous events starting from the
initial index 0: it never exceeds `cards.length - 1` (and, being a natural
number, never drops below 0); advancing on the last card leaves the index at
`cards.length - 1`, and going back on the first card leaves it at 0. -/
theorem flashcard_index_stays_in_bounds (len : Nat) (hlen : 0 < len)
    (evs : List CardNav) :
    navRun len evs 0 ≤ len - 1
    ∧ onNextCard len (len - 1) = len - 1
    ∧ onPreviousCard 0 = 0 := by
  refine ⟨navRun_le len evs 0 (by omega), ?_, rfl⟩
  simp only [onNextCard]
  omega

/-- Witness for C10 on a three-card list with a concrete event sequence that
runs off both ends. -/
theorem flashcard_index_stays_in_bounds_witness :
    0 < 3
    ∧ (navRun 3 [CardNav.next, CardNav.next, CardNav.next, CardNav.next,
          CardNav.prev, CardNav.prev, CardNav.prev, CardNav.prev] 0 ≤ 3 - 1
        ∧ onNextCard 3 (3 - 1) = 3 - 1
        ∧ onPreviousCard 0 = 0) :=
  ⟨by decide, flashcard_index_stays_in_bounds 3 (by decide)
    [CardNav.next, CardNav.next, CardNav.next, CardNav.next,
     CardNav.prev, CardNav.prev, CardNav.prev, CardNav.prev]⟩
